import Mathlib

/-!
# Verification of the gym-tracker plan generator

Shallow embedding of `src/js/plan.js` (plan generation) and
`src/js/exercises.js` (exercise catalog helpers).

The module-level catalog `EXERCISES` of `exercises.js` is passed explicitly
as a `catalog : List Exercise` parameter to every embedded function that
reads it.  JavaScript arrays become `List`, `Map` becomes an association
list preserving insertion order, `Set` membership becomes `List.contains`,
`null`/`undefined` results become `Option`, and the (possibly negative)
`daysPerWeek` number becomes `Int` with JS `Array.prototype.slice`
end-index semantics made explicit (`jsSliceTo`).

One approximation, noted where used: `Array.sort((a,b) => a.name.localeCompare(b.name))`
is embedded as a stable insertion sort under code-unit lexicographic
comparison of names.  the `localeCompare` collation is implementation-defined
(ECMA-402); on the names of the built-in catalog every deciding comparison is
between same-case ASCII letters, where code-unit order and any locale
collation agree.
-/

set_option autoImplicit false

namespace GymPlanner

/-- One catalog entry, `exercises.js` `normalize` output: all fields are strings. -/
structure Exercise where
  id : String
  name : String
  primaryMuscle : String
  equipment : String
  pattern : String
  deriving DecidableEq, Repr

/-- Prescription produced by `defaultPrescriptionForExercise`:
`{ targetSets, repRange: [lo, hi] }`. -/
structure Prescription where
  targetSets : Nat
  repRange : Nat × Nat
  deriving DecidableEq, Repr

/-- One entry of the `exercises` array of a plan day. -/
structure PrescribedExercise where
  exerciseId : String
  targetSets : Nat
  repRange : Nat × Nat
  deriving DecidableEq, Repr

/-- One entry of `Plan.days`. -/
structure PlanDay where
  name : String
  exercises : List PrescribedExercise
  deriving DecidableEq, Repr

/-- `Plan.meta`. -/
structure PlanMeta where
  goal : String
  daysPerWeek : Int
  equipment : List String
  deriving DecidableEq, Repr

/-- The `Plan` object returned by `generatePlan`. -/
structure Plan where
  name : String
  meta : PlanMeta
  days : List PlanDay
  deriving DecidableEq, Repr

/-- One day template of `patternsForSplit`: `{ name, patterns }`. -/
structure DayReq where
  name : String
  patterns : List String
  deriving DecidableEq, Repr

/-- The 15-entry built-in fallback catalog `FALLBACK` of `exercises.js`. -/
def FALLBACK : List Exercise := [
  ⟨"bb_squat", "Barbell Back Squat", "Quads", "Barbell", "Squat"⟩,
  ⟨"bb_deadlift", "Barbell Deadlift", "Hamstrings", "Barbell", "Hinge"⟩,
  ⟨"bb_bench", "Barbell Bench Press", "Chest", "Barbell", "Horizontal Push"⟩,
  ⟨"bb_ohp", "Barbell Overhead Press", "Shoulders", "Barbell", "Vertical Push"⟩,
  ⟨"bb_row", "Barbell Row", "Back", "Barbell", "Horizontal Pull"⟩,
  ⟨"pu", "Pull-up", "Back", "Bodyweight", "Vertical Pull"⟩,
  ⟨"db_curl", "Dumbbell Curl", "Biceps", "Dumbbell", "Accessory"⟩,
  ⟨"db_lateral", "Dumbbell Lateral Raise", "Shoulders", "Dumbbell", "Accessory"⟩,
  ⟨"leg_press", "Leg Press", "Quads", "Machine", "Squat"⟩,
  ⟨"cable_row", "Cable Row", "Back", "Cable", "Horizontal Pull"⟩,
  ⟨"pushup", "Push-up", "Chest", "Bodyweight", "Horizontal Push"⟩,
  ⟨"kb_swing", "Kettlebell Swing", "Hamstrings", "Kettlebell", "Hinge"⟩,
  ⟨"hip_thrust", "Barbell Hip Thrust", "Glutes", "Barbell", "Hinge"⟩,
  ⟨"db_incline", "Dumbbell Incline Press", "Chest", "Dumbbell", "Horizontal Push"⟩,
  ⟨"lat_pulldown", "Lat Pulldown", "Back", "Machine", "Vertical Pull"⟩]

/-- `plan.js` `COMPOUND_PATTERNS` (a `Set` of pattern strings; membership only). -/
def COMPOUND_PATTERNS : List String :=
  ["Squat", "Hinge", "Horizontal Push", "Vertical Push", "Horizontal Pull", "Vertical Pull"]

/-- `exercises.js` `getExerciseById`: `EXERCISES.find(e => e.id === id) || null`. -/
def getExerciseById (catalog : List Exercise) (id : String) : Option Exercise :=
  catalog.find? (fun e => e.id == id)

/-- `exercises.js` `byEquipmentAvailability`: `new Set(allowedEquip)` is empty
iff the list is empty, and `set.has(e.equipment)` is list membership. -/
def byEquipmentAvailability (catalog : List Exercise) (allowedEquip : List String) : List Exercise :=
  if allowedEquip.isEmpty then catalog
  else catalog.filter (fun e => allowedEquip.contains e.equipment)

/-- Code-unit lexicographic order on lists of code units. -/
def lexLt : List Nat → List Nat → Bool
  | [], [] => false
  | [], _ :: _ => true
  | _ :: _, [] => false
  | a :: as, b :: bs => if a < b then true else if b < a then false else lexLt as bs

/-- Name comparison used by the sorts: embeds `a.name.localeCompare(b.name) < 0`
as code-unit lexicographic order (see the header note on `localeCompare`). -/
def strLt (a b : String) : Bool :=
  lexLt (a.data.map Char.toNat) (b.data.map Char.toNat)

/-- Insert into a name-sorted list, keeping the inserted (earlier) element
before later equal-name elements, as JS stable `Array.sort` does. -/
def insertByName (e : Exercise) : List Exercise → List Exercise
  | [] => [e]
  | x :: xs => if strLt x.name e.name then x :: insertByName e xs else e :: x :: xs

/-- `arr.sort((a, b) => a.name.localeCompare(b.name))` as stable insertion sort. -/
def sortByName : List Exercise → List Exercise
  | [] => []
  | x :: xs => insertByName x (sortByName xs)

/-- The grouping key of `groupByPattern`, given in JS as the pattern string
with an Accessory default for a falsy value (the empty string is the only
falsy value a normalized `pattern` can take). -/
def patKey (e : Exercise) : String :=
  if e.pattern == "" then "Accessory" else e.pattern

/-- Association list embedding the `Map` built by `groupByPattern`. -/
abbrev Groups := List (String × List Exercise)

/-- One step of the `groupByPattern` loop: append `e` to the group of key `k`,
creating the group at the end on first occurrence (JS `Map` insertion order). -/
def addToGroups : Groups → String → Exercise → Groups
  | [], k, e => [(k, [e])]
  | (k2, g) :: rest, k, e =>
    if k2 == k then (k2, g ++ [e]) :: rest else (k2, g) :: addToGroups rest k e

/-- The `Map` of `groupByPattern` before the per-group sort. -/
def groupsOf (l : List Exercise) : Groups :=
  l.foldl (fun m e => addToGroups m (patKey e) e) []

/-- `plan.js` `groupByPattern`: group by pattern (empty defaults to Accessory), then sort
each group by name for deterministic selection. -/
def groupByPattern (l : List Exercise) : Groups :=
  (groupsOf l).map (fun p => (p.1, sortByName p.2))

/-- `byPat.get(pat) || []`. -/
def getPat (m : Groups) (k : String) : List Exercise :=
  match m.find? (fun p => p.1 == k) with
  | some p => p.2
  | none => []

/-- JS `x || y` on optional exercise picks (an object is never falsy). -/
def jsOr (a b : Option Exercise) : Option Exercise :=
  match a with
  | some x => some x
  | none => b

/-- The per-pattern pick of the `chooseExercisesForDay` loop body:
first unused from the equipment pool, else the head of the pool, else the same
search over the full catalog filtered to the exact pattern. -/
def choosePick (catalog : List Exercise) (byPat : Groups) (used : List String)
    (pat : String) : Option Exercise :=
  let pool := getPat byPat pat
  match jsOr (pool.find? (fun e => !(used.contains e.id))) pool.head? with
  | some p => some p
  | none =>
    let anyPool := sortByName (catalog.filter (fun e => e.pattern == pat))
    jsOr (anyPool.find? (fun e => !(used.contains e.id))) anyPool.head?

/-- The `for (const pat of req.patterns)` loop of `chooseExercisesForDay`,
threading the `chosen` array and the `usedIds` set. -/
def chooseLoop (catalog : List Exercise) (byPat : Groups) :
    List String → List Exercise → List String → List Exercise
  | [], chosen, _ => chosen
  | pat :: rest, chosen, used =>
    match choosePick catalog byPat used pat with
    | some p => chooseLoop catalog byPat rest (chosen ++ [p]) (used ++ [p.id])
    | none => chooseLoop catalog byPat rest chosen used

/-- `plan.js` `chooseExercisesForDay`, including the day-level total fallback
`getExercises().slice(0, 3)`. -/
def chooseExercisesForDay (catalog : List Exercise) (byPat : Groups) (req : DayReq) :
    List Exercise :=
  let chosen := chooseLoop catalog byPat req.patterns [] []
  if chosen.isEmpty then catalog.take 3 else chosen

/-- `plan.js` `defaultPrescriptionForExercise`: an exercise missing from the
catalog is treated as compound. -/
def defaultPrescriptionForExercise (catalog : List Exercise) (exerciseId goal : String) :
    Prescription :=
  let isCompound : Bool :=
    match getExerciseById catalog exerciseId with
    | some ex => COMPOUND_PATTERNS.contains ex.pattern
    | none => true
  if goal == "strength" then
    ⟨if isCompound then 5 else 3, if isCompound then (3, 5) else (6, 8)⟩
  else
    ⟨if isCompound then 3 else 3, if isCompound then (8, 12) else (12, 15)⟩

/-- The `seen`-set loop of `dedupeExercises`. -/
def dedupeGo (seen : List String) : List PrescribedExercise → List PrescribedExercise
  | [] => []
  | e :: rest =>
    if seen.contains e.exerciseId then dedupeGo seen rest
    else e :: dedupeGo (e.exerciseId :: seen) rest

/-- `plan.js` `dedupeExercises`: keep the first occurrence of each `exerciseId`. -/
def dedupeExercises (l : List PrescribedExercise) : List PrescribedExercise :=
  dedupeGo [] l

/-- `plan.js` `splitForDays`. -/
def splitForDays (d : Int) : String :=
  if d == 3 then "full"
  else if d == 4 then "ul"
  else if d == 5 || d == 6 then "ppl"
  else "full"

/-- JS `arr.slice(0, e)`: a negative end index counts from the end of the array. -/
def jsSliceTo {α : Type} (l : List α) (e : Int) : List α :=
  l.take (if e < 0 then (l.length + e).toNat else e.toNat)

/-- `plan.js` `patternsForSplit`: note that only the full-body and PPL branches
slice by `daysPerWeek`; the upper/lower branch always returns its 4 templates. -/
def patternsForSplit (split : String) (daysPerWeek : Int) : List DayReq :=
  if split == "full" then
    jsSliceTo [
      ⟨"Full Body A", ["Squat", "Horizontal Push", "Horizontal Pull", "Accessory"]⟩,
      ⟨"Full Body B", ["Hinge", "Vertical Push", "Vertical Pull", "Accessory"]⟩,
      ⟨"Full Body C", ["Squat", "Horizontal Push", "Vertical Pull", "Accessory"]⟩] daysPerWeek
  else if split == "ul" then [
    ⟨"Upper A", ["Horizontal Push", "Horizontal Pull", "Vertical Push", "Vertical Pull", "Accessory"]⟩,
    ⟨"Lower A", ["Squat", "Hinge", "Accessory"]⟩,
    ⟨"Upper B", ["Horizontal Push", "Horizontal Pull", "Vertical Push", "Vertical Pull", "Accessory"]⟩,
    ⟨"Lower B", ["Squat", "Hinge", "Accessory"]⟩]
  else
    jsSliceTo [
      ⟨"Push A", ["Horizontal Push", "Vertical Push", "Accessory"]⟩,
      ⟨"Pull A", ["Horizontal Pull", "Vertical Pull", "Accessory"]⟩,
      ⟨"Legs A", ["Squat", "Hinge", "Accessory"]⟩,
      ⟨"Push B", ["Horizontal Push", "Vertical Push", "Accessory"]⟩,
      ⟨"Pull B", ["Horizontal Pull", "Vertical Pull", "Accessory"]⟩,
      ⟨"Legs B", ["Squat", "Hinge", "Accessory"]⟩] daysPerWeek

/-- `plan.js` `defaultDayName` (JS `list[idx] || fallbackString`; the listed
names are non-empty, so `||` is exactly out-of-range defaulting). -/
def defaultDayName (split : String) (idx : Nat) : String :=
  if split == "full" then
    (["Full Body A", "Full Body B", "Full Body C"].getD idx ("Full Body " ++ toString (idx + 1)))
  else if split == "ul" then
    (["Upper A", "Lower A", "Upper B", "Lower B"].getD idx ("Day " ++ toString (idx + 1)))
  else if split == "ppl" then
    (["Push A", "Pull A", "Legs A", "Push B", "Pull B", "Legs B"].getD idx ("Day " ++ toString (idx + 1)))
  else "Day " ++ toString (idx + 1)

/-- The body of `dayReqs.map((req, i) => ...)` in `generatePlan` for one day. -/
def mkDay (catalog : List Exercise) (byPat : Groups) (goal split : String)
    (req : DayReq) (i : Nat) : PlanDay :=
  let chosen := chooseExercisesForDay catalog byPat req
  let exList := chosen.map (fun ex =>
    let p := defaultPrescriptionForExercise catalog ex.id goal
    PrescribedExercise.mk ex.id p.targetSets p.repRange)
  PlanDay.mk (if req.name == "" then defaultDayName split i else req.name)
    (dedupeExercises exList)

/-- `dayReqs.map((req, i) => ...)` with the running index made explicit. -/
def mkDays (catalog : List Exercise) (byPat : Groups) (goal split : String) :
    List DayReq → Nat → List PlanDay
  | [], _ => []
  | req :: rest, i => mkDay catalog byPat goal split req i :: mkDays catalog byPat goal split rest (i + 1)

/-- `plan.js` `generatePlan({goal, daysPerWeek, equipment})`. -/
def generatePlan (catalog : List Exercise) (goal : String) (daysPerWeek : Int)
    (equipment : List String) : Plan :=
  let avail := byEquipmentAvailability catalog equipment
  let byPat := groupByPattern avail
  let split := splitForDays daysPerWeek
  let dayReqs := patternsForSplit split daysPerWeek
  Plan.mk "My Plan" (PlanMeta.mk goal daysPerWeek equipment)
    (mkDays catalog byPat goal split dayReqs 0)

/-- Template count of each split family, read off the lists in `patternsForSplit`. -/
def splitTemplateCount (split : String) : Nat :=
  if split == "ul" then 4 else if split == "ppl" then 6 else 3

end GymPlanner

namespace GymPlanner

theorem mem_insertByName (e a : Exercise) (l : List Exercise) :
    a ∈ insertByName e l ↔ a = e ∨ a ∈ l := by
  induction l with
  | nil => simp [insertByName]
  | cons x xs ih =>
    by_cases h : strLt x.name e.name = true
    · simp [insertByName, h, ih]
      try tauto
    · simp [insertByName, h]
      try tauto

theorem mem_sortByName (a : Exercise) (l : List Exercise) :
    a ∈ sortByName l ↔ a ∈ l := by
  induction l with
  | nil => simp [sortByName]
  | cons x xs ih => simp [sortByName, mem_insertByName, ih]

theorem sortByName_ne_nil (l : List Exercise) (h : l ≠ []) : sortByName l ≠ [] := by
  intro hs
  rcases l with _ | ⟨x, xs⟩
  · exact h rfl
  · have : x ∈ sortByName (x :: xs) := (mem_sortByName x (x :: xs)).2 (by simp)
    rw [hs] at this
    simp at this

theorem getPat_cons (k2 k : String) (g : List Exercise) (rest : Groups) :
    getPat ((k2, g) :: rest) k = if k2 == k then g else getPat rest k := by
  by_cases h : k2 == k
  · simp [getPat, List.find?, h]
  · simp only [Bool.not_eq_true] at h
    simp [getPat, List.find?, h]

theorem mem_getPat (m : Groups) (k : String) (e : Exercise) (h : e ∈ getPat m k) :
    ∃ p ∈ m, p.1 = k ∧ e ∈ p.2 := by
  unfold getPat at h
  cases hf : m.find? (fun p => p.1 == k) with
  | none => rw [hf] at h; simp at h
  | some p =>
    rw [hf] at h
    refine ⟨p, List.mem_of_find?_eq_some hf, ?_, h⟩
    have := List.find?_some hf
    simpa using this

end GymPlanner

namespace GymPlanner

theorem addToGroups_sound (S : Exercise → Prop) (k : String) (e0 : Exercise)
    (hS : S e0) (hk : patKey e0 = k) :
    ∀ (m : Groups), (∀ p ∈ m, ∀ e ∈ p.2, S e ∧ patKey e = p.1) →
      ∀ p ∈ addToGroups m k e0, ∀ e ∈ p.2, S e ∧ patKey e = p.1 := by
  intro m
  induction m with
  | nil =>
    intro _ p hp e he
    simp [addToGroups] at hp
    subst hp
    simp at he
    subst he
    exact ⟨hS, hk⟩
  | cons q rest ih =>
    intro hm p hp e he
    obtain ⟨k2, g⟩ := q
    by_cases hkk : (k2 == k) = true
    · simp [addToGroups, hkk] at hp
      rcases hp with hp | hp
      · subst hp
        simp at he
        rcases he with he | he
        · exact hm (k2, g) (by simp) e he
        · subst he
          refine ⟨hS, ?_⟩
          rw [hk]
          exact (beq_iff_eq.mp hkk).symm
      · exact hm p (by simp [hp]) e he
    · simp only [Bool.not_eq_true] at hkk
      simp [addToGroups, hkk] at hp
      rcases hp with hp | hp
      · subst hp
        exact hm (k2, g) (by simp) e he
      · exact ih (fun p hp => hm p (by simp [hp])) p hp e he

theorem groupsAux_sound (S : Exercise → Prop) :
    ∀ (l : List Exercise) (m : Groups),
      (∀ p ∈ m, ∀ e ∈ p.2, S e ∧ patKey e = p.1) →
      (∀ e ∈ l, S e) →
      ∀ p ∈ l.foldl (fun m e => addToGroups m (patKey e) e) m, ∀ e ∈ p.2, S e ∧ patKey e = p.1 := by
  intro l
  induction l with
  | nil => intro m hm _ p hp; exact hm p hp
  | cons x xs ih =>
    intro m hm hl p hp
    simp only [List.foldl_cons] at hp
    exact ih (addToGroups m (patKey x) x)
      (addToGroups_sound S (patKey x) x (hl x (by simp)) rfl m hm)
      (fun e he => hl e (by simp [he])) p hp

theorem groupsOf_sound (l : List Exercise) :
    ∀ p ∈ groupsOf l, ∀ e ∈ p.2, e ∈ l ∧ patKey e = p.1 := by
  exact groupsAux_sound (fun e => e ∈ l) l [] (by simp) (fun e he => he)

theorem mem_getPat_groupsOf (l : List Exercise) (k : String) (e : Exercise)
    (h : e ∈ getPat (groupsOf l) k) : e ∈ l ∧ patKey e = k := by
  obtain ⟨p, hp, hk, he⟩ := mem_getPat _ _ _ h
  obtain ⟨h1, h2⟩ := groupsOf_sound l p hp e he
  exact ⟨h1, hk ▸ h2⟩

end GymPlanner

namespace GymPlanner

theorem getPat_map_sort (m : Groups) (k : String) :
    getPat (m.map (fun p => (p.1, sortByName p.2))) k = sortByName (getPat m k) := by
  induction m with
  | nil => simp [getPat, List.find?, sortByName]
  | cons q rest ih =>
    obtain ⟨k2, g⟩ := q
    by_cases h : (k2 == k) = true
    · simp [getPat_cons, h]
    · simp only [Bool.not_eq_true] at h
      simp [getPat_cons, h, ih]

theorem getPat_groupByPattern (l : List Exercise) (k : String) :
    getPat (groupByPattern l) k = sortByName (getPat (groupsOf l) k) :=
  getPat_map_sort (groupsOf l) k

theorem getPat_addToGroups_self (k : String) (e : Exercise) :
    ∀ (m : Groups), getPat (addToGroups m k e) k ≠ [] := by
  intro m
  induction m with
  | nil => simp [addToGroups, getPat_cons]
  | cons q rest ih =>
    obtain ⟨k2, g⟩ := q
    by_cases h : (k2 == k) = true
    · simp [addToGroups, h, getPat_cons]
    · simp only [Bool.not_eq_true] at h
      simp [addToGroups, h, getPat_cons, ih]

theorem getPat_addToGroups_ne (k k2 : String) (e : Exercise) (hne : (k == k2) = false) :
    ∀ (m : Groups), getPat (addToGroups m k e) k2 = getPat m k2 := by
  intro m
  induction m with
  | nil => simp [addToGroups, getPat_cons, hne, getPat]
  | cons q rest ih =>
    obtain ⟨k3, g⟩ := q
    by_cases h : (k3 == k) = true
    · have : k3 = k := beq_iff_eq.mp h
      subst this
      simp [addToGroups, getPat_cons, hne]
    · simp only [Bool.not_eq_true] at h
      simp [addToGroups, h, getPat_cons, ih]

theorem getPat_addToGroups_preserve (k k2 : String) (e : Exercise) (m : Groups)
    (h : getPat m k2 ≠ []) : getPat (addToGroups m k e) k2 ≠ [] := by
  by_cases hk : (k == k2) = true
  · have : k = k2 := beq_iff_eq.mp hk
    subst this
    exact getPat_addToGroups_self k e m
  · rw [getPat_addToGroups_ne k k2 e (by simp only [Bool.not_eq_true] at hk; exact hk) m]
    exact h

theorem getPat_groupsAux_ne_nil :
    ∀ (l : List Exercise) (m : Groups) (k : String),
      (getPat m k ≠ [] ∨ ∃ e ∈ l, patKey e = k) →
      getPat (l.foldl (fun m e => addToGroups m (patKey e) e) m) k ≠ [] := by
  intro l
  induction l with
  | nil =>
    intro m k h
    rcases h with h | h
    · simpa using h
    · simp at h
  | cons x xs ih =>
    intro m k h
    simp only [List.foldl_cons]
    apply ih
    rcases h with h | h
    · exact Or.inl (getPat_addToGroups_preserve (patKey x) k x m h)
    · rcases h with ⟨e, he, hk⟩
      rcases List.mem_cons.mp he with he | he
      · subst he
        subst hk
        exact Or.inl (getPat_addToGroups_self (patKey e) e m)
      · exact Or.inr ⟨e, he, hk⟩

theorem getPat_groupsOf_ne_nil (l : List Exercise) (k : String) (e : Exercise)
    (he : e ∈ l) (hk : patKey e = k) : getPat (groupsOf l) k ≠ [] :=
  getPat_groupsAux_ne_nil l [] k (Or.inr ⟨e, he, hk⟩)

theorem jsOr_find_mem (pool : List Exercise) (f : Exercise → Bool) (h : pool ≠ []) :
    ∃ p, jsOr (pool.find? f) pool.head? = some p ∧ p ∈ pool := by
  cases hf : pool.find? f with
  | some x => exact ⟨x, by simp [jsOr, hf], List.mem_of_find?_eq_some hf⟩
  | none =>
    rcases pool with _ | ⟨y, ys⟩
    · exact absurd rfl h
    · exact ⟨y, by simp [jsOr, hf], by simp⟩

end GymPlanner

namespace GymPlanner

theorem byEquipmentAvailability_subset (cat : List Exercise) (eqs : List String)
    (e : Exercise) (h : e ∈ byEquipmentAvailability cat eqs) : e ∈ cat := by
  unfold byEquipmentAvailability at h
  by_cases hd : eqs.isEmpty
  · rw [if_pos hd] at h; exact h
  · rw [if_neg hd] at h; exact List.mem_of_mem_filter h

theorem choosePick_respects_equipment (cat : List Exercise) (eqs : List String)
    (used : List String) (pat : String) (hpat : pat ≠ "")
    (hex : ∃ e ∈ byEquipmentAvailability cat eqs, e.pattern = pat) :
    ∃ p, choosePick cat (groupByPattern (byEquipmentAvailability cat eqs)) used pat = some p ∧
      p ∈ getPat (groupByPattern (byEquipmentAvailability cat eqs)) pat ∧
      p ∈ byEquipmentAvailability cat eqs := by
  set avail := byEquipmentAvailability cat eqs with havail
  obtain ⟨e, he, hep⟩ := hex
  have hkey : patKey e = pat := by
    unfold patKey
    rw [hep]
    simp only [beq_iff_eq]
    rw [if_neg hpat]
  have hpool0 : getPat (groupsOf avail) pat ≠ [] := getPat_groupsOf_ne_nil avail pat e he hkey
  have hpool : getPat (groupByPattern avail) pat ≠ [] := by
    rw [getPat_groupByPattern]
    exact sortByName_ne_nil _ hpool0
  obtain ⟨p, hp, hpmem⟩ := jsOr_find_mem (getPat (groupByPattern avail) pat)
    (fun e => !(used.contains e.id)) hpool
  refine ⟨p, ?_, hpmem, ?_⟩
  · simp only [choosePick]
    rw [hp]
  · have : p ∈ getPat (groupsOf avail) pat := by
      rw [getPat_groupByPattern] at hpmem
      exact (mem_sortByName p _).mp hpmem
    exact (mem_getPat_groupsOf avail pat p this).1

theorem choosePick_none_of_empty_pools (cat : List Exercise) (eqs : List String)
    (used : List String) (pat : String)
    (hfull : cat.filter (fun e => e.pattern == pat) = [])
    (hacc : ∀ e ∈ byEquipmentAvailability cat eqs, ¬(e.pattern = "" ∧ pat = "Accessory")) :
    choosePick cat (groupByPattern (byEquipmentAvailability cat eqs)) used pat = none := by
  set avail := byEquipmentAvailability cat eqs with havail
  have hpool : getPat (groupByPattern avail) pat = [] := by
    rw [getPat_groupByPattern]
    have hg : getPat (groupsOf avail) pat = [] := by
      by_contra hne
      rcases List.exists_mem_of_ne_nil _ hne with ⟨x, hx⟩
      obtain ⟨hxa, hxk⟩ := mem_getPat_groupsOf avail pat x hx
      by_cases hxe : (x.pattern == "") = true
      · have h1 : x.pattern = "" := beq_iff_eq.mp hxe
        have h2 : pat = "Accessory" := by
          unfold patKey at hxk
          rw [if_pos hxe] at hxk
          exact hxk.symm
        exact hacc x hxa ⟨h1, h2⟩
      · have h1 : x.pattern = pat := by
          unfold patKey at hxk
          rw [if_neg hxe] at hxk
          exact hxk
        have h2 : x ∈ cat.filter (fun e => e.pattern == pat) := by
          rw [List.mem_filter]
          exact ⟨byEquipmentAvailability_subset cat eqs x hxa, by simp [h1]⟩
        rw [hfull] at h2
        simp at h2
    rw [hg]
    rfl
  simp only [choosePick]
  rw [hpool]
  simp [jsOr, hfull, sortByName]

end GymPlanner

namespace GymPlanner

theorem dedupeGo_subset :
    ∀ (l : List PrescribedExercise) (seen : List String) (p : PrescribedExercise),
      p ∈ dedupeGo seen l → p ∈ l := by
  intro l
  induction l with
  | nil => intro seen p h; simp [dedupeGo] at h
  | cons e rest ih =>
    intro seen p h
    by_cases hc : seen.contains e.exerciseId
    · simp only [dedupeGo, if_pos hc] at h
      exact List.mem_cons_of_mem e (ih seen p h)
    · simp only [dedupeGo, if_neg hc] at h
      rcases List.mem_cons.mp h with h | h
      · simp [h]
      · exact List.mem_cons_of_mem e (ih _ p h)

theorem dedupeGo_nodup :
    ∀ (l : List PrescribedExercise) (seen : List String),
      ((dedupeGo seen l).map PrescribedExercise.exerciseId).Nodup ∧
      ∀ s ∈ (dedupeGo seen l).map PrescribedExercise.exerciseId, ¬ (seen.contains s = true) := by
  intro l
  induction l with
  | nil => intro seen; simp [dedupeGo]
  | cons e rest ih =>
    intro seen
    by_cases hc : seen.contains e.exerciseId
    · simpa only [dedupeGo, if_pos hc] using ih seen
    · simp only [dedupeGo, if_neg hc, List.map_cons, List.nodup_cons]
      obtain ⟨ih1, ih2⟩ := ih (e.exerciseId :: seen)
      refine ⟨⟨?_, ih1⟩, ?_⟩
      · intro hmem
        exact ih2 e.exerciseId hmem (by simp)
      · intro s hs
        rcases List.mem_cons.mp hs with hs | hs
        · subst hs; exact hc
        · intro hcs
          refine ih2 s hs ?_
          simp at hcs ⊢
          exact Or.inr hcs

theorem dedupeExercises_nodup (l : List PrescribedExercise) :
    ((dedupeExercises l).map PrescribedExercise.exerciseId).Nodup :=
  (dedupeGo_nodup l []).1

theorem mkDays_length (cat : List Exercise) (byPat : Groups) (goal split : String) :
    ∀ (reqs : List DayReq) (i : Nat), (mkDays cat byPat goal split reqs i).length = reqs.length := by
  intro reqs
  induction reqs with
  | nil => intro i; rfl
  | cons r rest ih => intro i; simp [mkDays, ih]

theorem mem_mkDays (cat : List Exercise) (byPat : Groups) (goal split : String) :
    ∀ (reqs : List DayReq) (i : Nat) (d : PlanDay), d ∈ mkDays cat byPat goal split reqs i →
      ∃ req j, d = mkDay cat byPat goal split req j := by
  intro reqs
  induction reqs with
  | nil => intro i d h; simp [mkDays] at h
  | cons r rest ih =>
    intro i d h
    rcases List.mem_cons.mp h with h | h
    · exact ⟨r, i, h⟩
    · exact ih (i + 1) d h

theorem exercises_of_mem_days (cat : List Exercise) (goal : String) (n : Int)
    (eqs : List String) (d : PlanDay) (hd : d ∈ (generatePlan cat goal n eqs).days) :
    ∃ req, d.exercises = dedupeExercises
      ((chooseExercisesForDay cat (groupByPattern (byEquipmentAvailability cat eqs)) req).map
        (fun ex => PrescribedExercise.mk ex.id
          (defaultPrescriptionForExercise cat ex.id goal).targetSets
          (defaultPrescriptionForExercise cat ex.id goal).repRange)) := by
  simp only [generatePlan] at hd
  obtain ⟨req, j, hdj⟩ := mem_mkDays _ _ _ _ _ _ _ hd
  exact ⟨req, by rw [hdj]; rfl⟩

theorem pe_prescription (cat : List Exercise) (goal : String) (n : Int)
    (eqs : List String) (d : PlanDay) (pe : PrescribedExercise)
    (hd : d ∈ (generatePlan cat goal n eqs).days) (hpe : pe ∈ d.exercises) :
    pe.targetSets = (defaultPrescriptionForExercise cat pe.exerciseId goal).targetSets ∧
    pe.repRange = (defaultPrescriptionForExercise cat pe.exerciseId goal).repRange := by
  obtain ⟨req, hex⟩ := exercises_of_mem_days cat goal n eqs d hd
  rw [hex] at hpe
  have hmap := dedupeGo_subset _ [] pe hpe
  rcases List.mem_map.mp hmap with ⟨ex, _, hpex⟩
  subst hpex
  exact ⟨rfl, rfl⟩

end GymPlanner

namespace GymPlanner

theorem prescription_valid (cat : List Exercise) (id goal : String) :
    1 ≤ (defaultPrescriptionForExercise cat id goal).repRange.1 ∧
    1 ≤ (defaultPrescriptionForExercise cat id goal).repRange.2 ∧
    (defaultPrescriptionForExercise cat id goal).repRange.1 ≤
      (defaultPrescriptionForExercise cat id goal).repRange.2 := by
  unfold defaultPrescriptionForExercise
  cases hb : (match getExerciseById cat id with
    | some ex => COMPOUND_PATTERNS.contains ex.pattern
    | none => true) <;>
    cases hg : (goal == "strength") <;> simp [hb, hg]

theorem prescription_table (cat : List Exercise) (id goal : String) (ex : Exercise)
    (h : getExerciseById cat id = some ex) :
    ((goal = "strength" →
       (COMPOUND_PATTERNS.contains ex.pattern = true →
         defaultPrescriptionForExercise cat id goal = ⟨5, (3, 5)⟩) ∧
       (ex.pattern = "Accessory" →
         defaultPrescriptionForExercise cat id goal = ⟨3, (6, 8)⟩)) ∧
     (goal = "hypertrophy" →
       (COMPOUND_PATTERNS.contains ex.pattern = true →
         defaultPrescriptionForExercise cat id goal = ⟨3, (8, 12)⟩) ∧
       (ex.pattern = "Accessory" →
         defaultPrescriptionForExercise cat id goal = ⟨3, (12, 15)⟩))) := by
  constructor
  · intro hg
    subst hg
    constructor
    · intro hcomp
      have hm : ex.pattern ∈ COMPOUND_PATTERNS := by simpa using hcomp
      simp [defaultPrescriptionForExercise, h, hcomp, hm]
    · intro hacc
      have hnc : COMPOUND_PATTERNS.contains ex.pattern = false := by
        rw [hacc]; decide
      have hm : ex.pattern ∉ COMPOUND_PATTERNS := by simpa using hnc
      simp [defaultPrescriptionForExercise, h, hnc, hm]
  · intro hg
    subst hg
    constructor
    · intro hcomp
      have hm : ex.pattern ∈ COMPOUND_PATTERNS := by simpa using hcomp
      simp [defaultPrescriptionForExercise, h, hcomp, hm]
    · intro hacc
      have hnc : COMPOUND_PATTERNS.contains ex.pattern = false := by
        rw [hacc]; decide
      have hm : ex.pattern ∉ COMPOUND_PATTERNS := by simpa using hnc
      simp [defaultPrescriptionForExercise, h, hnc, hm]

theorem prescription_nonstrength (cat : List Exercise) (id goal : String)
    (hg : goal ≠ "strength") :
    (defaultPrescriptionForExercise cat id goal).targetSets = 3 ∧
    ∀ ex, getExerciseById cat id = some ex →
      (COMPOUND_PATTERNS.contains ex.pattern = true →
        (defaultPrescriptionForExercise cat id goal).repRange = (8, 12)) ∧
      (ex.pattern = "Accessory" →
        (defaultPrescriptionForExercise cat id goal).repRange = (12, 15)) := by
  have hgb : (goal == "strength") = false := by
    simp [hg]
  constructor
  · unfold defaultPrescriptionForExercise
    cases hb : (match getExerciseById cat id with
      | some ex => COMPOUND_PATTERNS.contains ex.pattern
      | none => true) <;> simp [hb, hgb]
  · intro ex hex
    constructor
    · intro hcomp
      have hm : ex.pattern ∈ COMPOUND_PATTERNS := by simpa using hcomp
      simp [defaultPrescriptionForExercise, hex, hcomp, hm, hgb]
    · intro hacc
      have hnc : COMPOUND_PATTERNS.contains ex.pattern = false := by
        rw [hacc]; decide
      have hm : ex.pattern ∉ COMPOUND_PATTERNS := by simpa using hnc
      simp [defaultPrescriptionForExercise, hex, hnc, hm, hgb]

theorem choosePick_nil (used : List String) (pat : String) :
    choosePick [] [] used pat = none := rfl

theorem chooseLoop_nil_catalog :
    ∀ (pats : List String) (chosen : List Exercise) (used : List String),
      chooseLoop [] [] pats chosen used = chosen := by
  intro pats
  induction pats with
  | nil => intro chosen used; rfl
  | cons p rest ih =>
    intro chosen used
    simp only [chooseLoop, choosePick_nil]
    exact ih chosen used

theorem byEquipmentAvailability_nil_catalog (eqs : List String) :
    byEquipmentAvailability [] eqs = [] := by
  unfold byEquipmentAvailability
  by_cases h : eqs.isEmpty <;> simp [h]

end GymPlanner

namespace GymPlanner

theorem jsSliceTo_length_nonneg {α : Type} (l : List α) (e : Int) (he : 0 ≤ e) :
    (jsSliceTo l e).length = min e.toNat l.length := by
  unfold jsSliceTo
  rw [if_neg (by omega)]
  exact List.length_take e.toNat l

theorem patternsForSplit_length (n : Int) (hn : 0 ≤ n) :
    ((patternsForSplit (splitForDays n) n).length : Int) =
      min n (splitTemplateCount (splitForDays n)) := by
  by_cases h3 : n = 3
  · subst h3; decide
  by_cases h4 : n = 4
  · subst h4; decide
  by_cases h5 : n = 5
  · subst h5; decide
  by_cases h6 : n = 6
  · subst h6; decide
  have hsplit : splitForDays n = "full" := by
    unfold splitForDays
    simp [h3, h4, h5, h6]
  rw [hsplit]
  have hlen : (patternsForSplit "full" n).length = min n.toNat 3 := by
    unfold patternsForSplit
    simp only [if_pos (by rfl : ("full" == "full") = true)]
    rw [jsSliceTo_length_nonneg _ _ hn]
    rfl
  rw [hlen]
  have hc : splitTemplateCount "full" = 3 := rfl
  rw [hc]
  rw [Nat.cast_min]
  rw [Int.toNat_of_nonneg hn]

end GymPlanner

namespace GymPlanner

/-- C1: with the built-in 15-entry fallback catalog, `generatePlan` for goal
`hypertrophy`, 3 days per week and no equipment restriction returns exactly
the days "Full Body A/B/C", and day A is
`[bb_squat, bb_bench, bb_row, db_curl]` with sets 3 and rep ranges
`[8,12]` for the compounds and `[12,15]` for the accessory. -/
theorem generatePlan_fallback_example :
    (generatePlan FALLBACK "hypertrophy" 3 []).days.length = 3 ∧
    (generatePlan FALLBACK "hypertrophy" 3 []).days.map PlanDay.name =
      ["Full Body A", "Full Body B", "Full Body C"] ∧
    ((generatePlan FALLBACK "hypertrophy" 3 []).days.map PlanDay.exercises).head? =
      some [⟨"bb_squat", 3, (8, 12)⟩, ⟨"bb_bench", 3, (8, 12)⟩,
            ⟨"bb_row", 3, (8, 12)⟩, ⟨"db_curl", 3, (12, 15)⟩] := by
  decide

/-- C2 counterexample: at `daysPerWeek = -1` the generated plan has 2 days
(JS `slice(0, -1)` keeps two full-body templates), so
`days.length ≤ daysPerWeek` fails for negative day counts. -/
theorem generatePlan_day_count_counterexample :
    ¬ (((generatePlan [] "hypertrophy" (-1) []).days.length : Int) ≤ -1) := by
  decide

/-- C2 (amended to non-negative `daysPerWeek`): the generated plan has
`min n (template count of the selected split family)` days, and hence at
most `n` days. -/
theorem generatePlan_day_count (cat : List Exercise) (goal : String) (eqs : List String)
    (n : Int) (hn : 0 ≤ n) :
    ((generatePlan cat goal n eqs).days.length : Int) =
      min n (splitTemplateCount (splitForDays n)) ∧
    ((generatePlan cat goal n eqs).days.length : Int) ≤ n := by
  have hlen : (generatePlan cat goal n eqs).days.length =
      (patternsForSplit (splitForDays n) n).length := by
    simp [generatePlan, mkDays_length]
  constructor
  · rw [hlen]
    exact patternsForSplit_length n hn
  · rw [hlen, patternsForSplit_length n hn]
    exact min_le_left _ _

theorem generatePlan_day_count_witness :
    (0 : Int) ≤ 5 ∧
    (((generatePlan FALLBACK "hypertrophy" 5 []).days.length : Int) =
      min 5 (splitTemplateCount (splitForDays 5)) ∧
     ((generatePlan FALLBACK "hypertrophy" 5 []).days.length : Int) ≤ 5) :=
  ⟨by decide, generatePlan_day_count FALLBACK "hypertrophy" [] 5 (by decide)⟩

/-- C3: in every day of every generated plan, the `exerciseId` values are
pairwise distinct (`dedupeExercises` runs on each assembled day). -/
theorem generatePlan_day_exercises_nodup (cat : List Exercise) (goal : String) (n : Int)
    (eqs : List String) (d : PlanDay) (hd : d ∈ (generatePlan cat goal n eqs).days) :
    (d.exercises.map PrescribedExercise.exerciseId).Nodup := by
  obtain ⟨req, hex⟩ := exercises_of_mem_days cat goal n eqs d hd
  rw [hex]
  exact dedupeExercises_nodup _

theorem generatePlan_day_exercises_nodup_witness :
    (PlanDay.mk "Full Body A" [⟨"bb_squat", 3, (8, 12)⟩, ⟨"bb_bench", 3, (8, 12)⟩,
        ⟨"bb_row", 3, (8, 12)⟩, ⟨"db_curl", 3, (12, 15)⟩]) ∈
      (generatePlan FALLBACK "hypertrophy" 3 []).days ∧
    (((PlanDay.mk "Full Body A" [⟨"bb_squat", 3, (8, 12)⟩, ⟨"bb_bench", 3, (8, 12)⟩,
        ⟨"bb_row", 3, (8, 12)⟩, ⟨"db_curl", 3, (12, 15)⟩]).exercises.map
          PrescribedExercise.exerciseId).Nodup) :=
  ⟨by decide,
   generatePlan_day_exercises_nodup FALLBACK "hypertrophy" 3 [] _ (by decide)⟩

end GymPlanner

namespace GymPlanner

/-- C4: every prescribed exercise of a generated plan has a valid rep range
(`1 ≤ lo ≤ hi`) and follows the default-prescription table for its goal and
its catalog pattern. -/
theorem generatePlan_prescriptions_follow_table (cat : List Exercise) (goal : String)
    (n : Int) (eqs : List String) (d : PlanDay) (pe : PrescribedExercise)
    (hd : d ∈ (generatePlan cat goal n eqs).days) (hpe : pe ∈ d.exercises) :
    (1 ≤ pe.repRange.1 ∧ 1 ≤ pe.repRange.2 ∧ pe.repRange.1 ≤ pe.repRange.2) ∧
    ∀ ex, getExerciseById cat pe.exerciseId = some ex →
      ((goal = "strength" →
         (COMPOUND_PATTERNS.contains ex.pattern = true →
           pe.targetSets = 5 ∧ pe.repRange = (3, 5)) ∧
         (ex.pattern = "Accessory" → pe.targetSets = 3 ∧ pe.repRange = (6, 8))) ∧
       (goal = "hypertrophy" →
         (COMPOUND_PATTERNS.contains ex.pattern = true →
           pe.targetSets = 3 ∧ pe.repRange = (8, 12)) ∧
         (ex.pattern = "Accessory" → pe.targetSets = 3 ∧ pe.repRange = (12, 15)))) := by
  obtain ⟨hts, hrr⟩ := pe_prescription cat goal n eqs d pe hd hpe
  constructor
  · rw [hrr]
    exact prescription_valid cat pe.exerciseId goal
  · intro ex hex
    have ht := prescription_table cat pe.exerciseId goal ex hex
    constructor
    · intro hg
      obtain ⟨hcompI, haccI⟩ := ht.1 hg
      refine ⟨fun hcomp => ?_, fun hacc => ?_⟩
      · rw [hcompI hcomp] at hts hrr
        exact ⟨hts, hrr⟩
      · rw [haccI hacc] at hts hrr
        exact ⟨hts, hrr⟩
    · intro hg
      obtain ⟨hcompI, haccI⟩ := ht.2 hg
      refine ⟨fun hcomp => ?_, fun hacc => ?_⟩
      · rw [hcompI hcomp] at hts hrr
        exact ⟨hts, hrr⟩
      · rw [haccI hacc] at hts hrr
        exact ⟨hts, hrr⟩

theorem generatePlan_prescriptions_follow_table_witness :
    (PlanDay.mk "Full Body A" [⟨"bb_squat", 3, (8, 12)⟩, ⟨"bb_bench", 3, (8, 12)⟩,
        ⟨"bb_row", 3, (8, 12)⟩, ⟨"db_curl", 3, (12, 15)⟩]) ∈
      (generatePlan FALLBACK "hypertrophy" 3 []).days ∧
    (⟨"bb_squat", 3, (8, 12)⟩ : PrescribedExercise) ∈
      (PlanDay.mk "Full Body A" [⟨"bb_squat", 3, (8, 12)⟩, ⟨"bb_bench", 3, (8, 12)⟩,
        ⟨"bb_row", 3, (8, 12)⟩, ⟨"db_curl", 3, (12, 15)⟩]).exercises ∧
    ((1 ≤ ((⟨"bb_squat", 3, (8, 12)⟩ : PrescribedExercise)).repRange.1 ∧
      1 ≤ ((⟨"bb_squat", 3, (8, 12)⟩ : PrescribedExercise)).repRange.2 ∧
      ((⟨"bb_squat", 3, (8, 12)⟩ : PrescribedExercise)).repRange.1 ≤
        ((⟨"bb_squat", 3, (8, 12)⟩ : PrescribedExercise)).repRange.2) ∧
     ∀ ex, getExerciseById FALLBACK ((⟨"bb_squat", 3, (8, 12)⟩ : PrescribedExercise)).exerciseId = some ex →
       (("hypertrophy" = "strength" →
          (COMPOUND_PATTERNS.contains ex.pattern = true →
            ((⟨"bb_squat", 3, (8, 12)⟩ : PrescribedExercise)).targetSets = 5 ∧
            ((⟨"bb_squat", 3, (8, 12)⟩ : PrescribedExercise)).repRange = (3, 5)) ∧
          (ex.pattern = "Accessory" →
            ((⟨"bb_squat", 3, (8, 12)⟩ : PrescribedExercise)).targetSets = 3 ∧
            ((⟨"bb_squat", 3, (8, 12)⟩ : PrescribedExercise)).repRange = (6, 8))) ∧
        ("hypertrophy" = "hypertrophy" →
          (COMPOUND_PATTERNS.contains ex.pattern = true →
            ((⟨"bb_squat", 3, (8, 12)⟩ : PrescribedExercise)).targetSets = 3 ∧
            ((⟨"bb_squat", 3, (8, 12)⟩ : PrescribedExercise)).repRange = (8, 12)) ∧
          (ex.pattern = "Accessory" →
            ((⟨"bb_squat", 3, (8, 12)⟩ : PrescribedExercise)).targetSets = 3 ∧
            ((⟨"bb_squat", 3, (8, 12)⟩ : PrescribedExercise)).repRange = (12, 15))))) :=
  ⟨by decide, by decide,
   generatePlan_prescriptions_follow_table FALLBACK "hypertrophy" 3 []
     (PlanDay.mk "Full Body A" [⟨"bb_squat", 3, (8, 12)⟩, ⟨"bb_bench", 3, (8, 12)⟩,
        ⟨"bb_row", 3, (8, 12)⟩, ⟨"db_curl", 3, (12, 15)⟩])
     ⟨"bb_squat", 3, (8, 12)⟩ (by decide) (by decide)⟩

end GymPlanner

namespace GymPlanner

/-- C5 (amended): for a template-requested (hence non-empty) pattern, if some
equipment-available exercise has exactly that pattern, the pick exists and
comes from the equipment-filtered pool; and if the full catalog has no
exercise of that exact pattern, nothing is picked — provided no
equipment-available exercise has an empty pattern string while the requested
pattern is "Accessory" (an empty pattern is grouped under "Accessory"). -/
theorem chooseExercises_respects_equipment (cat : List Exercise) (eqs used : List String)
    (pat : String) (hpat : pat ≠ "") :
    ((∃ e ∈ byEquipmentAvailability cat eqs, e.pattern = pat) →
      ∃ p, choosePick cat (groupByPattern (byEquipmentAvailability cat eqs)) used pat = some p ∧
        p ∈ getPat (groupByPattern (byEquipmentAvailability cat eqs)) pat ∧
        p ∈ byEquipmentAvailability cat eqs) ∧
    ((cat.filter (fun e => e.pattern == pat) = [] ∧
      ∀ e ∈ byEquipmentAvailability cat eqs, ¬(e.pattern = "" ∧ pat = "Accessory")) →
      choosePick cat (groupByPattern (byEquipmentAvailability cat eqs)) used pat = none) :=
  ⟨fun hex => choosePick_respects_equipment cat eqs used pat hpat hex,
   fun hfa => choosePick_none_of_empty_pools cat eqs used pat hfa.1 hfa.2⟩

theorem chooseExercises_respects_equipment_witness :
    ("Squat" : String) ≠ "" ∧
    ∃ p, choosePick FALLBACK (groupByPattern (byEquipmentAvailability FALLBACK ["Machine"]))
        [] "Squat" = some p ∧
      p ∈ getPat (groupByPattern (byEquipmentAvailability FALLBACK ["Machine"])) "Squat" ∧
      p ∈ byEquipmentAvailability FALLBACK ["Machine"] :=
  ⟨by decide,
   (chooseExercises_respects_equipment FALLBACK ["Machine"] [] "Squat" (by decide)).1
     ⟨⟨"leg_press", "Leg Press", "Quads", "Machine", "Squat"⟩, by decide, rfl⟩⟩

/-- C5 counterexample: a catalog whose only exercise has the empty pattern
string has an empty full-catalog pool for "Accessory", yet the selector picks
that exercise for the "Accessory" pattern (the empty pattern is grouped under
the "Accessory" key), so as stated the no-exercise-added conjunct fails. -/
theorem chooseExercises_empty_pattern_counterexample :
    (List.filter (fun e => e.pattern == "Accessory")
      [(⟨"x", "X", "M", "None", ""⟩ : Exercise)]) = [] ∧
    choosePick [⟨"x", "X", "M", "None", ""⟩]
      (groupByPattern (byEquipmentAvailability [⟨"x", "X", "M", "None", ""⟩] []))
      [] "Accessory" = some ⟨"x", "X", "M", "None", ""⟩ := by
  decide

/-- C6: an empty equipment set means no filtering (the full catalog), so
`generatePlan` with empty equipment selects from the whole catalog; a
non-empty set keeps exactly the entries whose equipment is in the set. -/
theorem byEquipmentAvailability_empty_unrestricted (cat : List Exercise)
    (eqs : List String) (goal : String) (n : Int) (h : eqs ≠ []) :
    byEquipmentAvailability cat [] = cat ∧
    byEquipmentAvailability cat eqs = cat.filter (fun e => eqs.contains e.equipment) ∧
    (generatePlan cat goal n []).days =
      mkDays cat (groupByPattern cat) goal (splitForDays n)
        (patternsForSplit (splitForDays n) n) 0 := by
  refine ⟨rfl, ?_, rfl⟩
  unfold byEquipmentAvailability
  rw [if_neg (by simpa [List.isEmpty_iff] using h)]

theorem byEquipmentAvailability_empty_unrestricted_witness :
    (["Barbell"] : List String) ≠ [] ∧
    (byEquipmentAvailability FALLBACK [] = FALLBACK ∧
     byEquipmentAvailability FALLBACK ["Barbell"] =
       FALLBACK.filter (fun e => (["Barbell"] : List String).contains e.equipment) ∧
     (generatePlan FALLBACK "hypertrophy" 3 []).days =
       mkDays FALLBACK (groupByPattern FALLBACK) "hypertrophy" (splitForDays 3)
         (patternsForSplit (splitForDays 3) 3) 0) :=
  ⟨by decide,
   byEquipmentAvailability_empty_unrestricted FALLBACK ["Barbell"] "hypertrophy" 3 (by decide)⟩

/-- C8: an `exerciseId` absent from the catalog is treated as compound, with
no error: strength gives 5 sets of 3-5, hypertrophy gives 3 sets of 8-12. -/
theorem defaultPrescription_unknown_treated_compound (cat : List Exercise) (id : String)
    (h : getExerciseById cat id = none) :
    defaultPrescriptionForExercise cat id "strength" = ⟨5, (3, 5)⟩ ∧
    defaultPrescriptionForExercise cat id "hypertrophy" = ⟨3, (8, 12)⟩ := by
  constructor <;> simp [defaultPrescriptionForExercise, h]

theorem defaultPrescription_unknown_treated_compound_witness :
    getExerciseById FALLBACK "mystery" = none ∧
    (defaultPrescriptionForExercise FALLBACK "mystery" "strength" = ⟨5, (3, 5)⟩ ∧
     defaultPrescriptionForExercise FALLBACK "mystery" "hypertrophy" = ⟨3, (8, 12)⟩) :=
  ⟨by decide, defaultPrescription_unknown_treated_compound FALLBACK "mystery" (by decide)⟩

end GymPlanner

namespace GymPlanner

/-- C9: generation never fails: with an empty catalog every generated day has
zero exercises; and whenever the per-pattern loop chooses nothing at all, the
day falls back to the first three catalog exercises in iteration order. -/
theorem generatePlan_empty_catalog_total_fallback (goal : String) (n : Int)
    (eqs : List String) (cat : List Exercise) (byPat : Groups) (req : DayReq)
    (h : chooseLoop cat byPat req.patterns [] [] = []) :
    (∀ d ∈ (generatePlan [] goal n eqs).days, d.exercises = []) ∧
    chooseExercisesForDay cat byPat req = cat.take 3 := by
  constructor
  · intro d hd
    obtain ⟨req2, hex⟩ := exercises_of_mem_days [] goal n eqs d hd
    have hgb : groupByPattern (byEquipmentAvailability [] eqs) = ([] : Groups) := by
      rw [byEquipmentAvailability_nil_catalog]
      rfl
    rw [hex, hgb]
    have hch : chooseExercisesForDay [] ([] : Groups) req2 = [] := by
      unfold chooseExercisesForDay
      rw [chooseLoop_nil_catalog]
      rfl
    rw [hch]
    rfl
  · unfold chooseExercisesForDay
    rw [h]
    rfl

theorem generatePlan_empty_catalog_total_fallback_witness :
    chooseLoop FALLBACK (groupByPattern FALLBACK) (DayReq.mk "X" []).patterns [] [] = [] ∧
    ((∀ d ∈ (generatePlan [] "hypertrophy" 3 []).days, d.exercises = []) ∧
     chooseExercisesForDay FALLBACK (groupByPattern FALLBACK) (DayReq.mk "X" []) =
       FALLBACK.take 3) :=
  ⟨rfl, generatePlan_empty_catalog_total_fallback "hypertrophy" 3 [] FALLBACK
    (groupByPattern FALLBACK) (DayReq.mk "X" []) rfl⟩

/-- C10: any goal other than exactly "strength" falls into the hypertrophy
branch: 3 target sets everywhere, rep range 8-12 for compound-pattern
exercises and 12-15 for accessory exercises. -/
theorem generatePlan_nonstrength_defaults (cat : List Exercise) (goal : String) (n : Int)
    (eqs : List String) (d : PlanDay) (pe : PrescribedExercise) (hg : goal ≠ "strength")
    (hd : d ∈ (generatePlan cat goal n eqs).days) (hpe : pe ∈ d.exercises) :
    pe.targetSets = 3 ∧
    ∀ ex, getExerciseById cat pe.exerciseId = some ex →
      (COMPOUND_PATTERNS.contains ex.pattern = true → pe.repRange = (8, 12)) ∧
      (ex.pattern = "Accessory" → pe.repRange = (12, 15)) := by
  obtain ⟨hts, hrr⟩ := pe_prescription cat goal n eqs d pe hd hpe
  obtain ⟨h3, htab⟩ := prescription_nonstrength cat pe.exerciseId goal hg
  refine ⟨by rw [hts, h3], ?_⟩
  intro ex hex
  obtain ⟨hc, ha⟩ := htab ex hex
  exact ⟨fun hcomp => by rw [hrr, hc hcomp], fun hacc => by rw [hrr, ha hacc]⟩

theorem generatePlan_nonstrength_defaults_witness :
    ("" : String) ≠ "strength" ∧
    (PlanDay.mk "Full Body A" [⟨"bb_squat", 3, (8, 12)⟩, ⟨"bb_bench", 3, (8, 12)⟩,
        ⟨"bb_row", 3, (8, 12)⟩, ⟨"db_curl", 3, (12, 15)⟩]) ∈
      (generatePlan FALLBACK "" 3 []).days ∧
    (⟨"bb_squat", 3, (8, 12)⟩ : PrescribedExercise) ∈
      (PlanDay.mk "Full Body A" [⟨"bb_squat", 3, (8, 12)⟩, ⟨"bb_bench", 3, (8, 12)⟩,
        ⟨"bb_row", 3, (8, 12)⟩, ⟨"db_curl", 3, (12, 15)⟩]).exercises ∧
    ((⟨"bb_squat", 3, (8, 12)⟩ : PrescribedExercise).targetSets = 3 ∧
     ∀ ex, getExerciseById FALLBACK
         ((⟨"bb_squat", 3, (8, 12)⟩ : PrescribedExercise)).exerciseId = some ex →
       (COMPOUND_PATTERNS.contains ex.pattern = true →
         ((⟨"bb_squat", 3, (8, 12)⟩ : PrescribedExercise)).repRange = (8, 12)) ∧
       (ex.pattern = "Accessory" →
         ((⟨"bb_squat", 3, (8, 12)⟩ : PrescribedExercise)).repRange = (12, 15))) :=
  ⟨by decide, by decide, by decide,
   generatePlan_nonstrength_defaults FALLBACK "" 3 []
     (PlanDay.mk "Full Body A" [⟨"bb_squat", 3, (8, 12)⟩, ⟨"bb_bench", 3, (8, 12)⟩,
        ⟨"bb_row", 3, (8, 12)⟩, ⟨"db_curl", 3, (12, 15)⟩])
     ⟨"bb_squat", 3, (8, 12)⟩ (by decide) (by decide) (by decide)⟩

end GymPlanner
